import Mathlib

/-!
Verification development for the EKS infrastructure program `step7.py`
(`labs/aws/python/lab-04/code/step7.py`) and the dependency-graph /
deferred-value engine described in its design document.

Part 1 embeds the program's idempotent-naming code: the module-level
`h = hashlib.new('sha1')` object (a SHA-1 hash accumulating every byte fed
to it via `h.update`) and the two `RolePolicyAttachment` loops that name
each attachment `f"{base}-{h.hexdigest()[0:8]}"`.  SHA-1 is modelled
bit-faithfully from the algorithm implemented by Python's `hashlib`
(FIPS 180-1), on `Nat` with explicit reduction modulo 2^32.
-/

namespace IaCW

set_option maxRecDepth 100000
set_option maxHeartbeats 4000000

/-- 2^32, the word modulus of SHA-1. -/
def pow32 : Nat := 4294967296

/-- 32-bit left rotation by `n` of a word `x < 2^32`. -/
def rotl (n x : Nat) : Nat := ((x <<< n) ||| (x >>> (32 - n))) % pow32

/-- Big-endian byte decomposition: `n` bytes of `x`, most significant first. -/
def toBytesBE : Nat → Nat → List Nat
  | 0, _ => []
  | n + 1, x => toBytesBE n (x / 256) ++ [x % 256]

/-- Pack a byte list into 32-bit big-endian words (groups of four bytes). -/
def wordsOfBytes : List Nat → List Nat
  | b0 :: b1 :: b2 :: b3 :: rest =>
      (((b0 * 256 + b1) * 256 + b2) * 256 + b3) :: wordsOfBytes rest
  | _ => []

/-- SHA-1 padding: append `0x80`, zero bytes up to 56 mod 64, then the
bit length as an 8-byte big-endian integer. -/
def sha1pad (m : List Nat) : List Nat :=
  m ++ [128] ++ List.replicate ((119 - m.length % 64) % 64) 0 ++ toBytesBE 8 (8 * m.length)

/-- Split a list into 64-byte chunks (fuelled to make recursion structural). -/
def chunksAux : Nat → List Nat → List (List Nat)
  | 0, _ => []
  | _, [] => []
  | fuel + 1, l => l.take 64 :: chunksAux fuel (l.drop 64)

/-- Split a (padded) message into 64-byte blocks. -/
def chunks64 (l : List Nat) : List (List Nat) := chunksAux l.length l

/-- SHA-1 message schedule, expansion step: given the sliding window of the
last 16 schedule words (oldest first), produce the next `n` words
`w[i] = rotl1 (w[i-3] xor w[i-8] xor w[i-14] xor w[i-16])`. -/
def expandTail : Nat → List Nat → List Nat
  | 0, _ => []
  | n + 1, win =>
      let x := rotl 1 ((win.getD 13 0) ^^^ (win.getD 8 0) ^^^
                       (win.getD 2 0) ^^^ (win.getD 0 0))
      x :: expandTail n (win.drop 1 ++ [x])

/-- SHA-1 message schedule: the 16 block words extended to 80 words. -/
def expandW (w : List Nat) : List Nat := w ++ expandTail 64 w

/-- The SHA-1 round function for round `t`. -/
def sha1f (t b c d : Nat) : Nat :=
  if t < 20 then (b &&& c) ||| ((b ^^^ 4294967295) &&& d)
  else if t < 40 then b ^^^ c ^^^ d
  else if t < 60 then (b &&& c) ||| (b &&& d) ||| (c &&& d)
  else b ^^^ c ^^^ d

/-- The SHA-1 round constant for round `t`. -/
def sha1k (t : Nat) : Nat :=
  if t < 20 then 1518500249
  else if t < 40 then 1859775393
  else if t < 60 then 2400959708
  else 3395469782

/-- The 80 SHA-1 rounds, consuming the schedule word list; `t` is the
index of the next round. -/
def sha1RoundsAux :
    Nat → List Nat → Nat × Nat × Nat × Nat × Nat → Nat × Nat × Nat × Nat × Nat
  | _, [], st => st
  | t, wt :: ws, (a, b, c, d, e) =>
      sha1RoundsAux (t + 1) ws
        ((rotl 5 a + sha1f t b c d + e + sha1k t + wt) % pow32, a, rotl 30 b, c, d)

/-- One SHA-1 compression: run 80 rounds of the expanded schedule of block
words `w` over the chaining state and add the result back in, modulo 2^32. -/
def sha1Rounds (w : List Nat) (h : Nat × Nat × Nat × Nat × Nat) :
    Nat × Nat × Nat × Nat × Nat :=
  match h with
  | (h0, h1, h2, h3, h4) =>
    match sha1RoundsAux 0 (expandW w) (h0, h1, h2, h3, h4) with
    | (a, b, c, d, e) =>
      ((h0 + a) % pow32, (h1 + b) % pow32, (h2 + c) % pow32,
       (h3 + d) % pow32, (h4 + e) % pow32)

/-- The SHA-1 initial chaining state. -/
def sha1Init : Nat × Nat × Nat × Nat × Nat :=
  (1732584193, 4023233417, 2562383102, 271733878, 3285377520)

/-- The five 32-bit words of the SHA-1 digest of a byte list. -/
def sha1Words (m : List Nat) : Nat × Nat × Nat × Nat × Nat :=
  (chunks64 (sha1pad m)).foldl (fun h chunk => sha1Rounds (wordsOfBytes chunk) h)
    sha1Init

/-- Lowercase hexadecimal digit for `n < 16`. -/
def hexChar (n : Nat) : Char :=
  if n < 10 then Char.ofNat (48 + n) else Char.ofNat (87 + n)

/-- `len` lowercase hex digits of `n`, most significant first. -/
def toHex : Nat → Nat → List Char
  | 0, _ => []
  | l + 1, n => toHex l (n / 16) ++ [hexChar (n % 16)]

/-- `hexdigest()` of Python's SHA-1 object after feeding it the bytes `m`:
the 40-character lowercase hex form of the digest. -/
def sha1Hexdigest (m : List Nat) : String :=
  match sha1Words m with
  | (h0, h1, h2, h3, h4) =>
    String.mk (toHex 8 h0 ++ toHex 8 h1 ++ toHex 8 h2 ++ toHex 8 h3 ++ toHex 8 h4)

/-- UTF-8 encoding of one Unicode code point. -/
def utf8EncodeChar (c : Nat) : List Nat :=
  if c < 128 then [c]
  else if c < 2048 then [192 + c / 64, 128 + c % 64]
  else if c < 65536 then [224 + c / 4096, 128 + (c / 64) % 64, 128 + c % 64]
  else [240 + c / 262144, 128 + (c / 4096) % 64, 128 + (c / 64) % 64, 128 + c % 64]

/-- `s.encode('utf-8')` as a list of byte values. -/
def utf8Bytes (s : String) : List Nat :=
  (s.data.map (fun c => utf8EncodeChar c.toNat)).flatten

/-!
Embedding of the naming code of `step7.py`.  The module-level hash object
`h` is represented by its observable state: the list of all bytes fed to
it so far (`h.update` appends, `h.hexdigest()` is the SHA-1 hex digest of
that accumulated byte list — exactly Python's `hashlib` semantics).
-/

/-- `service_role_managed_policy_arns` of `step7.py` (lines 25–28). -/
def service_role_managed_policy_arns : List String :=
  ["arn:aws:iam::aws:policy/AmazonEKSClusterPolicy",
   "arn:aws:iam::aws:policy/AmazonEKSServicePolicy"]

/-- `nodegroup_role_managed_policy_arns` of `step7.py` (lines 52–56). -/
def nodegroup_role_managed_policy_arns : List String :=
  ["arn:aws:iam::aws:policy/AmazonEKSWorkerNodePolicy",
   "arn:aws:iam::aws:policy/AmazonEKS_CNI_Policy",
   "arn:aws:iam::aws:policy/AmazonEC2ContainerRegistryReadOnly"]

/-- `h.update(policy.encode('utf-8'))`: feeding bytes to the hash object
appends them to its accumulated input. -/
def hUpdate (state : List Nat) (policy : String) : List Nat :=
  state ++ utf8Bytes policy

/-- `h.hexdigest()[0:8]`: the first 8 hex characters of the digest of the
bytes accumulated so far. -/
def hexdigest8 (state : List Nat) : String :=
  (sha1Hexdigest state).take 8

/-- The loop body at `step7.py` lines 30–35 and 58–63 — the program's
realisation of the identity assigner's `assignWithSuffix(base, content)`:
it mutates the single module-level hash `h` with the identifying content
and names the attachment `f"{base}-{h.hexdigest()[0:8]}"`.  Returns the
new hash state together with the generated logical name. -/
def assignWithSuffix (state : List Nat) (base : String) (content : String) :
    List Nat × String :=
  let s2 := hUpdate state content
  (s2, base ++ "-" ++ hexdigest8 s2)

/-- Run the naming code over a list of (base name, policy ARN) pairs,
threading the hash state, returning the generated names in order. -/
def runNaming : List Nat → List (String × String) → List String
  | _, [] => []
  | state, (base, policy) :: rest =>
      (assignWithSuffix state base policy).2 ::
        runNaming (assignWithSuffix state base policy).1 rest

/-- The five policy attachments `step7.py` declares, in execution order:
first the service-role loop (base name `"eks-service-role"`), then the
node-group loop (base name `"eks-nodegroup-role"`). -/
def declaredAttachments : List (String × String) :=
  service_role_managed_policy_arns.map (fun p => ("eks-service-role", p)) ++
    nodegroup_role_managed_policy_arns.map (fun p => ("eks-nodegroup-role", p))

/-- All policy ARNs fed to `h`, in the order the program feeds them. -/
def allPolicyArns : List String :=
  service_role_managed_policy_arns ++ nodegroup_role_managed_policy_arns

/-- The logical names of the five `RolePolicyAttachment` resources the
program generates, in declaration order (`h` starts fresh at line 8). -/
def step7AttachmentNames : List String :=
  runNaming [] declaredAttachments

/-!
Part 2: the dependency-graph / deferred-value engine of the design
document.  The engine itself is not part of the repository's source (the
program relies on the SDK for it), so it is modelled from the spec:
deferred values (§3, §4.1), the output materializer (§4.5), the
provisioning scheduler's state machine (§4.2, §5).
-/

/-- Modelled from the spec: the values deferred cells can carry — strings
(resource attributes), integers, wider numerics (a provider may return a
port as a wider numeric type, §4.5), and the ordered sequences produced
by `joinAll`. -/
inductive Val where
  | str : String → Val
  | int : Int → Val
  | rat : Rat → Val
  | tuple : List Val → Val

/-- Modelled from the spec (§3): the resolution environment — for each
declared resource and output attribute, the resolved value if the
resource has reached `Created`, and `none` while it is unresolved or
after it failed permanently (a failed resource never populates its
output attributes). -/
def Env : Type := String → String → Option Val

/-- Modelled from the spec (§3, §4.1): a DeferredValue is a literal
already-known value (`of`), a pending cell tied to a resource's future
output attribute (`fromPending`), or a derived cell holding a
transformation function plus its input cells (`map` / `joinAll`). -/
inductive DeferredValue where
  | ofVal : Val → DeferredValue
  | fromPending : String → String → DeferredValue
  | mapD : (Val → Val) → DeferredValue → DeferredValue
  | joinAll : List DeferredValue → DeferredValue

mutual

/-- Modelled from the spec (§4.1, §4.5): resolve / materialize a deferred
value against an environment.  A literal resolves to itself; a pending
cell reads the environment, and an unpopulated read is an error naming
the resource whose unresolved (or failed) chain blocks the output; a
`map` cell applies its pure function once its source resolves; a
`joinAll` cell resolves to the ordered sequence of its inputs' values
once all of them resolve. -/
def resolve (env : Env) : DeferredValue → Except String Val
  | .ofVal v => .ok v
  | .fromPending r a =>
      match env r a with
      | some v => .ok v
      | none => .error r
  | .mapD f d =>
      match resolve env d with
      | .ok v => .ok (f v)
      | .error e => .error e
  | .joinAll ds =>
      match resolveList env ds with
      | .ok vs => .ok (.tuple vs)
      | .error e => .error e

/-- Resolve each cell of a list in order, propagating the first error. -/
def resolveList (env : Env) : List DeferredValue → Except String (List Val)
  | [] => .ok []
  | d :: ds =>
      match resolve env d, resolveList env ds with
      | .ok v, .ok vs => .ok (v :: vs)
      | .error e, _ => .error e
      | .ok _, .error e => .error e

end

/-- Did resolution succeed? -/
def isOkE : Except String Val → Bool
  | .ok _ => true
  | .error _ => false

/-- The direct input cells of a deferred value: the source of a `map`
cell, the joined cells of a `joinAll` cell, nothing for literals and
pending cells. -/
def directInputs : DeferredValue → List DeferredValue
  | .mapD _ d0 => [d0]
  | .joinAll ds => ds
  | _ => []

/-- Every direct input cell of `d` is resolved under `env`. -/
def inputsResolved (env : Env) (d : DeferredValue) : Bool :=
  (directInputs d).all (fun d0 => isOkE (resolve env d0))

/-- Modelled from the spec (§3, §5): the environment order under which
resolution is monotone — `envLE e1 e2` holds when every attribute already
resolved in `e1` is resolved to the identical value in `e2` (pending
cells are written once; a resolved cell's value never changes). -/
def envLE (e1 e2 : Env) : Prop :=
  ∀ r a v, e1 r a = some v → e2 r a = some v

/-- Python's `str` form of a value the program interpolates into an
f-string.  The program only ever interpolates string attributes and the
result of `round`, so only those cases are exercised by the theorems. -/
def valStr : Val → String
  | .str s => s
  | .int i => toString i
  | .rat q => toString q
  | .tuple _ => ""

/-- Python's built-in `round` on a numeric value: round half to even
(banker's rounding), written over the numerator and denominator so that
it evaluates by kernel reduction. -/
def pythonRound (q : Rat) : Int :=
  let f := Int.fdiv q.num (q.den : Int)
  let rem := q.num - f * (q.den : Int)
  if 2 * rem < (q.den : Int) then f
  else if (q.den : Int) < 2 * rem then f + 1
  else if f % 2 = 0 then f else f + 1

/-- `round(args[1])` as applied by the url lambda: identity on integers,
half-to-even rounding on wider numerics (`step7.py` line 208). -/
def valRound : Val → Int
  | .int i => i
  | .rat q => pythonRound q
  | _ => 0

/-- The lambda of `step7.py` line 208:
`lambda args: f"http://{args[0]}:{round(args[1])}"`, applied to the
joined (hostname, port) pair. -/
def urlFormat : Val → Val
  | .tuple [h, p] => .str ("http://" ++ valStr h ++ ":" ++ toString (valRound p))
  | v => v

/-- The `'url'` output expression of `step7.py` lines 207–208:
`Output.all(service.status...hostname, service.spec.ports[0].port)`
`.apply(lambda args: f"http://{args[0]}:{round(args[1])}")`. -/
def urlOutput : DeferredValue :=
  .mapD urlFormat
    (.joinAll [.fromPending "app-service" "hostname",
               .fromPending "app-service" "port"])

/-!
JSON documents and Python's `json.dumps` (default options: item separator
`", "`, key separator `": "`, `ensure_ascii=True`, insertion order of the
dict preserved), as used by `generateKubeconfig`.
-/

/-- JSON values as built by the dict/list/string literals of
`generateKubeconfig` (`step7.py` lines 115–147). -/
inductive Json where
  | str : String → Json
  | arr : List Json → Json
  | obj : List (String × Json) → Json

/-- A `\uXXXX` escape (lowercase hex), as emitted by `json.dumps` with
`ensure_ascii=True`. -/
def uEscape (n : Nat) : List Char :=
  '\\' :: 'u' :: toHex 4 n

/-- How `json.dumps` renders one character of a string: the two-character
escapes for quote, backslash and the common control characters, plain
ASCII verbatim, and `\uXXXX` escapes (with UTF-16 surrogate pairs beyond
the basic multilingual plane) for everything else. -/
def jsonEscapeChar (c : Char) : List Char :=
  if c = '"' then ['\\', '"']
  else if c = '\\' then ['\\', '\\']
  else if c = Char.ofNat 8 then ['\\', 'b']
  else if c = Char.ofNat 9 then ['\\', 't']
  else if c = Char.ofNat 10 then ['\\', 'n']
  else if c = Char.ofNat 12 then ['\\', 'f']
  else if c = Char.ofNat 13 then ['\\', 'r']
  else if 32 ≤ c.toNat ∧ c.toNat ≤ 126 then [c]
  else if c.toNat < 65536 then uEscape c.toNat
  else uEscape (55296 + (c.toNat - 65536) / 1024) ++ uEscape (56320 + (c.toNat - 65536) % 1024)

/-- A JSON string literal: the escaped characters between double quotes. -/
def jsonQuote (s : String) : String :=
  "\"" ++ String.mk ((s.data.map jsonEscapeChar).flatten) ++ "\""

mutual

/-- Python's `json.dumps` with its default separators, on the documents
`generateKubeconfig` builds. -/
def jsonDumps : Json → String
  | .str s => jsonQuote s
  | .arr l => "[" ++ jsonDumpsArr l ++ "]"
  | .obj l => "\x7b" ++ jsonDumpsObj l ++ "\x7d"

/-- Array elements joined by `", "`. -/
def jsonDumpsArr : List Json → String
  | [] => ""
  | [x] => jsonDumps x
  | x :: xs => jsonDumps x ++ ", " ++ jsonDumpsArr xs

/-- Object entries `"key": value` joined by `", "`, in insertion order. -/
def jsonDumpsObj : List (String × Json) → String
  | [] => ""
  | [(k, v)] => jsonQuote k ++ ": " ++ jsonDumps v
  | (k, v) :: xs => jsonQuote k ++ ": " ++ jsonDumps v ++ ", " ++ jsonDumpsObj xs

end

/-- Field lookup in a JSON object (first entry with the given key). -/
def jLookup (j : Json) (k : String) : Option Json :=
  match j with
  | .obj l => (l.find? (fun p => p.1 == k)).map (fun p => p.2)
  | _ => none

/-- The kubeconfig document dict built by `generateKubeconfig`
(`step7.py` lines 115–147), with the three f-string interpolations
`f"{endpoint}"`, `f"{cert_data}"`, `f"{cluster_name}"` as its only
input-dependent leaves. -/
def kubeconfigDoc (endpoint cert_data cluster_name : String) : Json :=
  .obj [
    ("apiVersion", .str "v1"),
    ("clusters", .arr [.obj [
        ("cluster", .obj [
            ("server", .str endpoint),
            ("certificate-authority-data", .str cert_data)]),
        ("name", .str "kubernetes")]]),
    ("contexts", .arr [.obj [
        ("context", .obj [
            ("cluster", .str "kubernetes"),
            ("user", .str "aws")]),
        ("name", .str "aws")]]),
    ("current-context", .str "aws"),
    ("kind", .str "Config"),
    ("users", .arr [.obj [
        ("name", .str "aws"),
        ("user", .obj [
            ("exec", .obj [
                ("apiVersion", .str "client.authentication.k8s.io/v1alpha1"),
                ("command", .str "aws-iam-authenticator"),
                ("args", .arr [.str "token", .str "-i", .str cluster_name])])])]])]

/-- `generateKubeconfig` (`step7.py` lines 114–147): `json.dumps` of the
kubeconfig document. -/
def generateKubeconfig (endpoint cert_data cluster_name : String) : String :=
  jsonDumps (kubeconfigDoc endpoint cert_data cluster_name)

/-- The `kubeconfig` expression of `step7.py` line 150:
`Output.all(cluster.endpoint, cluster.certificate_authority["data"],`
`cluster.name).apply(lambda args: generateKubeconfig(args[0], args[1], args[2]))`. -/
def kubeconfigOutput : DeferredValue :=
  .mapD (fun v =>
      match v with
      | .tuple [e, d, n] => .str (generateKubeconfig (valStr e) (valStr d) (valStr n))
      | w => w)
    (.joinAll [.fromPending "eks-cluster" "endpoint",
               .fromPending "eks-cluster" "certificate_authority.data",
               .fromPending "eks-cluster" "name"])

/-!
Part 3: the provisioning scheduler, modelled from the spec (§3, §4.2,
§5).  Resources are identified by their logical names; a `DependencyEdge`
`(a, b)` means `b`'s provisioning must complete before `a`'s begins.
-/

/-- Modelled from the spec (§4.2): the per-resource state machine
`Pending → Ready → Creating → Created`, with `Creating → Retrying →
Creating` on transient failure, and `Failed` terminal. -/
inductive RState where
  | Pending
  | Ready
  | Creating
  | Retrying
  | Created
  | Failed
deriving DecidableEq

/-- Modelled from the spec (§3): the dependency graph — the declared
resources and the dependency edges `(A, B)` (`B` before `A`). -/
structure Graph where
  resources : List String
  edges : List (String × String)

/-- The sources of `r`'s dependency edges: the resources that must reach
`Created` before `r`'s provisioning starts. -/
def prereqs (g : Graph) (r : String) : List String :=
  (g.edges.filter (fun e => e.1 == r)).map (fun e => e.2)

/-- The scheduler's view of every resource's current state. -/
def StateMap : Type := String → RState

/-- At the start of a run every resource is `Pending`. -/
def initState : StateMap := fun _ => .Pending

/-- Update one resource's state. -/
def upd (s : StateMap) (r : String) (x : RState) : StateMap :=
  fun y => if y = r then x else s y

/-- Has this resource's provisioning call started (or finished)? -/
def startedState : RState → Bool
  | .Creating => true
  | .Retrying => true
  | .Created => true
  | _ => false

/-- Is this resource in a terminal state? -/
def isTerminal : RState → Bool
  | .Created => true
  | .Failed => true
  | _ => false

/-- Modelled from the spec (§4.2, §5): one transition of the (concurrent,
nondeterministic) provisioning scheduler.  `Pending → Ready` fires only
when every dependency edge's source is `Created`; dispatch, completion,
permanent failure, transient retry, and retry exhaustion follow the state
machine; a `Pending` resource one of whose prerequisites is `Failed` is
marked `Failed` without ever being dispatched. -/
inductive SchedStep (g : Graph) : StateMap → StateMap → Prop where
  | ready (s : StateMap) (r : String) (hmem : r ∈ g.resources)
      (hp : s r = .Pending)
      (hdeps : (prereqs g r).all (fun d => s d == .Created) = true) :
      SchedStep g s (upd s r .Ready)
  | dispatch (s : StateMap) (r : String) (h : s r = .Ready) :
      SchedStep g s (upd s r .Creating)
  | complete (s : StateMap) (r : String) (h : s r = .Creating) :
      SchedStep g s (upd s r .Created)
  | failPermanent (s : StateMap) (r : String) (h : s r = .Creating) :
      SchedStep g s (upd s r .Failed)
  | retryTransient (s : StateMap) (r : String) (h : s r = .Creating) :
      SchedStep g s (upd s r .Retrying)
  | retryDispatch (s : StateMap) (r : String) (h : s r = .Retrying) :
      SchedStep g s (upd s r .Creating)
  | retryExhausted (s : StateMap) (r : String) (h : s r = .Retrying) :
      SchedStep g s (upd s r .Failed)
  | propagateFailure (s : StateMap) (r : String) (hp : s r = .Pending)
      (hfail : (prereqs g r).any (fun d => s d == .Failed) = true) :
      SchedStep g s (upd s r .Failed)

/-- An execution of the scheduler: a finite sequence of transitions. -/
inductive SchedExec (g : Graph) : StateMap → StateMap → Prop where
  | refl (s : StateMap) : SchedExec g s s
  | step (s t u : StateMap) : SchedStep g s t → SchedExec g t u → SchedExec g s u

/-- Modelled from the spec (§4.2): a graph is acyclic when it admits a
topological rank — every dependency edge's source ranks strictly below
its target's dependent (cyclic graphs admit no such rank and are rejected
at build time). -/
def Acyclic (g : Graph) : Prop :=
  ∃ m : String → Nat, ∀ e ∈ g.edges, m e.2 < m e.1

/-- Modelled from the spec (§3): `DependsOn g a b` — resource `a`
transitively depends on resource `b` through dependency edges. -/
inductive DependsOn (g : Graph) : String → String → Prop where
  | direct (a b : String) : b ∈ prereqs g a → DependsOn g a b
  | trans (a b c : String) : b ∈ prereqs g a → DependsOn g b c → DependsOn g a c

/-!
A deterministic completed run of the scheduler, used to settle the
failure-propagation claim end to end: each pass synchronously provisions
every `Pending` resource whose prerequisites are all `Created` (invoking
its create capability, which either succeeds or fails permanently per the
`fails` oracle) and marks `Failed` every `Pending` resource one of whose
prerequisites is `Failed`.  Running as many passes as the graph is deep
completes the run.  Modelled from the spec (§4.2, §5).
-/

/-- One synchronous scheduler pass over all resources. -/
def passOne (g : Graph) (fails : String → Bool) (s : StateMap) : StateMap :=
  fun r =>
    if r ∈ g.resources then
      match s r with
      | .Pending =>
          if (prereqs g r).all (fun d => s d == .Created) then
            (if fails r then .Failed else .Created)
          else if (prereqs g r).any (fun d => s d == .Failed) then .Failed
          else .Pending
      | x => x
    else s r

/-- The resources whose create capability the pass starting from `s`
invokes: the `Pending` resources with all prerequisites `Created`. -/
def passInvoked (g : Graph) (s : StateMap) : List String :=
  g.resources.filter (fun r => s r == .Pending && (prereqs g r).all (fun d => s d == .Created))

/-- `n` synchronous scheduler passes from the all-`Pending` initial
state, together with the cumulative list of resources whose create
capability was invoked. -/
def runSched (g : Graph) (fails : String → Bool) : Nat → StateMap × List String
  | 0 => (initState, [])
  | n + 1 =>
      let p := runSched g fails n
      (passOne g fails p.1, p.2 ++ passInvoked g p.1)

/-- The scheduler invariant behind the topological-execution guarantee:
every resource past `Pending` and not `Failed` has all its prerequisites
`Created`. -/
def depsCreated (g : Graph) (s : StateMap) : Prop :=
  ∀ r, s r ≠ .Pending → s r ≠ .Failed → ∀ d ∈ prereqs g r, s d = .Created

/-!
Concrete fixtures used by the witness theorems.
-/

/-- A two-resource graph: `"b"` depends on `"a"`. -/
def gW : Graph := ⟨["a", "b"], [("b", "a")]⟩

/-- A topological rank for `gW`. -/
def mW : String → Nat := fun r => if r = "b" then 1 else 0

/-- A failure oracle under which `"a"` fails permanently. -/
def failsA : String → Bool := fun r => r == "a"

/-- The state reached by provisioning `"a"` and then `"b"` in `gW`. -/
def sW : StateMap :=
  upd (upd (upd (upd (upd initState "a" .Ready) "a" .Creating) "a" .Created) "b" .Ready) "b" .Creating

/-- An environment in which only the service hostname and port of
`step7.py`'s `app-service` are resolved. -/
def envService : Env := fun r a =>
  if r == "app-service" && a == "hostname" then some (.str "lb.example.com")
  else if r == "app-service" && a == "port" then some (.int 80)
  else none

/-- An environment in which the cluster of `step7.py` has been created,
with concrete endpoint, certificate data and name. -/
def envCluster : Env := fun r a =>
  if r == "eks-cluster" && a == "endpoint" then some (.str "https://eks.example.com")
  else if r == "eks-cluster" && a == "certificate_authority.data" then some (.str "Q0VSVA==")
  else if r == "eks-cluster" && a == "name" then some (.str "eks-cluster-ab12cd3")
  else none

/-- An environment in which the cluster failed permanently and so never
populated any output attribute. -/
def envClusterFailed : Env := fun _ _ => none

/-- An environment resolving one attribute `("x", "o")`. -/
def envW1 : Env := fun r a =>
  if r == "x" && a == "o" then some (.int 1) else none

/-- `envW1` extended by a second resolved attribute — a later snapshot of
the same run. -/
def envW2 : Env := fun r a =>
  if r == "x" && a == "o" then some (.int 1)
  else if r == "y" && a == "p" then some (.int 2) else none

/-!
Theorems.  First the validation lemmas pinning the library models to
known reference outputs, then the shared helper lemmas, then one theorem
per claim (with witnesses).
-/

/-- The SHA-1 model reproduces the standard test vector `sha1("abc")`. -/
theorem sha1_abc :
    sha1Hexdigest (utf8Bytes "abc") = "a9993e364706816aba3e25717850c26c9cd0d89d" := by
  decide

/-- The SHA-1 model reproduces the empty-message test vector. -/
theorem sha1_empty :
    sha1Hexdigest (utf8Bytes "") = "da39a3ee5e6b4b0d3255bfef95601890afd80709" := by
  decide

/-- The `json.dumps` model reproduces CPython's output of
`generateKubeconfig` on concrete inputs, byte for byte. -/
theorem generateKubeconfig_python_vector :
    generateKubeconfig "https://eks.example.com" "Q0VSVA==" "eks-cluster-ab12cd3" =
      "\x7b\"apiVersion\": \"v1\", \"clusters\": [\x7b\"cluster\": \x7b\"server\": \"https://eks.example.com\", \"certificate-authority-data\": \"Q0VSVA==\"\x7d, \"name\": \"kubernetes\"\x7d], \"contexts\": [\x7b\"context\": \x7b\"cluster\": \"kubernetes\", \"user\": \"aws\"\x7d, \"name\": \"aws\"\x7d], \"current-context\": \"aws\", \"kind\": \"Config\", \"users\": [\x7b\"name\": \"aws\", \"user\": \x7b\"exec\": \x7b\"apiVersion\": \"client.authentication.k8s.io/v1alpha1\", \"command\": \"aws-iam-authenticator\", \"args\": [\"token\", \"-i\", \"eks-cluster-ab12cd3\"]\x7d\x7d\x7d]\x7d" := by
  decide

mutual

/-- Resolution is monotone under environment extension: a value resolved
in `e1` resolves to the identical value in any `e2` extending `e1`. -/
theorem resolve_mono (e1 e2 : Env) (hle : envLE e1 e2) :
    ∀ (d : DeferredValue) (v : Val), resolve e1 d = .ok v → resolve e2 d = .ok v
  | .ofVal w, v, h => h
  | .fromPending r a, v, h => by
      simp only [resolve] at h ⊢
      cases hv : e1 r a with
      | none => rw [hv] at h; exact absurd h (by simp)
      | some w => rw [hv] at h; rw [hle r a w hv]; exact h
  | .mapD f d, v, h => by
      simp only [resolve] at h ⊢
      cases hd : resolve e1 d with
      | error e => rw [hd] at h; simp at h
      | ok w => rw [hd] at h; rw [resolve_mono e1 e2 hle d w hd]; exact h
  | .joinAll ds, v, h => by
      simp only [resolve] at h ⊢
      cases hd : resolveList e1 ds with
      | error e => rw [hd] at h; simp at h
      | ok ws => rw [hd] at h; rw [resolveList_mono e1 e2 hle ds ws hd]; exact h

/-- List version of `resolve_mono`. -/
theorem resolveList_mono (e1 e2 : Env) (hle : envLE e1 e2) :
    ∀ (ds : List DeferredValue) (vs : List Val),
      resolveList e1 ds = .ok vs → resolveList e2 ds = .ok vs
  | [], vs, h => h
  | d :: ds, vs, h => by
      simp only [resolveList] at h ⊢
      cases hd : resolve e1 d with
      | error e => rw [hd] at h; simp at h
      | ok w =>
        cases hds : resolveList e1 ds with
        | error e => rw [hd, hds] at h; simp at h
        | ok ws =>
          rw [hd, hds] at h
          rw [resolve_mono e1 e2 hle d w hd, resolveList_mono e1 e2 hle ds ws hds]
          exact h

end

/-- If a list of cells jointly resolved, each member cell resolved. -/
theorem resolveList_ok_each (e : Env) :
    ∀ (ds : List DeferredValue) (vs : List Val),
      resolveList e ds = .ok vs → ∀ d ∈ ds, isOkE (resolve e d) = true
  | [], _, _ => by intro d hd; cases hd
  | d0 :: ds, vs, h => by
      simp only [resolveList] at h
      cases hd : resolve e d0 <;> rw [hd] at h
      · simp at h
      · cases hds : resolveList e ds <;> rw [hds] at h
        · simp at h
        · intro d hd2
          rcases List.mem_cons.mp hd2 with rfl | hmem
          · simp [isOkE, hd]
          · exact resolveList_ok_each e ds _ hds d hmem

/-- C5: the deferred-value combinator laws — for every value `v` and pure
function `f`, `of(v).map(f)` resolves to `f(v)`, and for all values `a`,
`b`, `joinAll(of(a), of(b))` resolves to the ordered pair `(a, b)`. -/
theorem deferred_value_combinator_laws (env : Env) (v : Val) (f : Val → Val) (a b : Val) :
    resolve env (.mapD f (.ofVal v)) = .ok (f v) ∧
    resolve env (.joinAll [.ofVal a, .ofVal b]) = .ok (.tuple [a, b]) :=
  ⟨rfl, rfl⟩

/-- C6: resolution is write-once — once a cell resolved to a value under
`e1`, it reads back as the identical value under every later environment
`e2` of the run (`envLE e1 e2`, the scheduler only adds resolved
attributes and never changes one); moreover a derived cell resolves only
after every one of its direct input cells has resolved. -/
theorem deferred_resolution_write_once (e1 e2 : Env) (d : DeferredValue) (v : Val)
    (hmono : envLE e1 e2) (h : resolve e1 d = .ok v) :
    resolve e2 d = .ok v ∧ inputsResolved e1 d = true := by
  refine ⟨resolve_mono e1 e2 hmono d v h, ?_⟩
  cases d with
  | ofVal w => rfl
  | fromPending r a => rfl
  | mapD f d0 =>
      simp only [resolve] at h
      cases hd : resolve e1 d0 <;> rw [hd] at h
      · simp at h
      · simp [inputsResolved, directInputs, isOkE, hd]
  | joinAll ds =>
      simp only [resolve] at h
      cases hd : resolveList e1 ds <;> rw [hd] at h
      · simp at h
      · simp only [inputsResolved, directInputs, List.all_eq_true]
        intro d0 hd0
        exact resolveList_ok_each e1 ds _ hd d0 hd0

/-- Witness for C6: a concrete derived cell resolved under `envW1` reads
back identically under the later snapshot `envW2`, and its input had
resolved. -/
theorem deferred_resolution_write_once_witness :
    resolve envW2 (.mapD (fun v => v) (.joinAll [.fromPending "x" "o"])) =
      .ok (.tuple [.int 1]) ∧
    inputsResolved envW1 (.mapD (fun v => v) (.joinAll [.fromPending "x" "o"])) = true :=
  deferred_resolution_write_once envW1 envW2
    (.mapD (fun v => v) (.joinAll [.fromPending "x" "o"])) (.tuple [.int 1])
    (by
      intro r a v hv
      simp only [envW1] at hv
      simp only [envW2]
      by_cases hc : (r == "x" && a == "o") = true
      · rw [if_pos hc] at hv; rw [if_pos hc]; exact hv
      · rw [if_neg hc] at hv; exact absurd hv (by simp))
    rfl

/-- Counterexample to C1: in the program, two calls to the naming code
with the same base name and the same identifying content return
different suffixes, because the module-level hash `h` accumulates every
byte ever fed to it.  Starting from a fresh hash (as at `step7.py` line
8), hashing the `AmazonEKSClusterPolicy` ARN twice under base name
`"role-x"` yields two distinct generated names. -/
theorem assignWithSuffix_same_content_different_name :
    ¬ ((assignWithSuffix [] "role-x" "arn:aws:iam::aws:policy/AmazonEKSClusterPolicy").2 =
       (assignWithSuffix
          (assignWithSuffix [] "role-x" "arn:aws:iam::aws:policy/AmazonEKSClusterPolicy").1
          "role-x" "arn:aws:iam::aws:policy/AmazonEKSClusterPolicy").2) := by
  decide

/-- C1 (amended): the generated logical name is determined by the base
name together with the entire byte history fed to the module-level hash
up to and including this call — two calls whose accumulated hash input
coincides (and whose base names coincide) generate the identical name,
in the same run and across runs of the same declared program. -/
theorem assignWithSuffix_determined_by_history (s1 s2 : List Nat) (b c1 c2 : String)
    (h : hUpdate s1 c1 = hUpdate s2 c2) :
    (assignWithSuffix s1 b c1).2 = (assignWithSuffix s2 b c2).2 := by
  simp only [assignWithSuffix, h]

/-- Witness for the amended C1: feeding `"ab"` then `"c"` generates the
same name as feeding `"a"` then `"bc"` — the name depends only on the
accumulated history. -/
theorem assignWithSuffix_determined_by_history_witness :
    (assignWithSuffix (utf8Bytes "ab") "role-x" "c").2 =
      (assignWithSuffix (utf8Bytes "a") "role-x" "bc").2 :=
  assignWithSuffix_determined_by_history (utf8Bytes "ab") (utf8Bytes "a") "role-x" "c" "bc"
    (by decide)

/-- Counterexample to C2: the second declared policy attachment is not
named base name plus a truncated hash computed from its own policy ARN
alone — its suffix also depends on the ARN hashed before it. -/
theorem attachment_name_not_own_content_hash :
    step7AttachmentNames.getD 1 "" ≠
      "eks-service-role" ++ "-" ++
        (sha1Hexdigest (utf8Bytes "arn:aws:iam::aws:policy/AmazonEKSServicePolicy")).take 8 := by
  decide

/-- C2 (amended): each generated attachment name is the base name, a
dash, and the first 8 hex characters of the SHA-1 digest of the
concatenation of all policy ARNs fed to the hash up to and including
this attachment; the two attachments of the service role thus get the
distinct names `eks-service-role-4b490823` (hash of P1) and
`eks-service-role-c05aa93d` (hash of P1 ++ P2). -/
theorem service_role_attachment_names_cumulative :
    step7AttachmentNames.getD 0 "" =
      "eks-service-role" ++ "-" ++
        (sha1Hexdigest (utf8Bytes "arn:aws:iam::aws:policy/AmazonEKSClusterPolicy")).take 8 ∧
    step7AttachmentNames.getD 1 "" =
      "eks-service-role" ++ "-" ++
        (sha1Hexdigest (utf8Bytes ("arn:aws:iam::aws:policy/AmazonEKSClusterPolicy" ++
          "arn:aws:iam::aws:policy/AmazonEKSServicePolicy"))).take 8 ∧
    step7AttachmentNames.getD 0 "" ≠ step7AttachmentNames.getD 1 "" := by
  refine ⟨by decide, by decide, by decide⟩

/-- The first node-group attachment name depends on the service-role
policy ARNs hashed earlier: running the node-group loop after the
service-role loop names it differently than running it from a fresh
hash would. -/
theorem nodegroup_names_depend_on_service_prefix :
    (runNaming (utf8Bytes (String.join service_role_managed_policy_arns))
        (nodegroup_role_managed_policy_arns.map (fun p => ("eks-nodegroup-role", p)))).getD 0 "" ≠
      (runNaming []
        (nodegroup_role_managed_policy_arns.map (fun p => ("eks-nodegroup-role", p)))).getD 0 "" := by
  decide

/-- C9: the i-th policy attachment (declaration order across both loops)
is named by its loop's base name and the first 8 hex characters of the
SHA-1 digest of the UTF-8 concatenation of every policy ARN processed up
to and including it; consequently node-group attachment names depend on
the service-role policy list processed earlier, not only on their own
ARN. -/
theorem attachment_suffix_is_cumulative_sha1 (i : Nat) (hi : i < 5) :
    (step7AttachmentNames.getD i "" =
      (declaredAttachments.getD i ("", "")).1 ++ "-" ++
        (sha1Hexdigest (utf8Bytes (String.join (allPolicyArns.take (i + 1))))).take 8) ∧
    (runNaming (utf8Bytes (String.join service_role_managed_policy_arns))
        (nodegroup_role_managed_policy_arns.map (fun p => ("eks-nodegroup-role", p)))).getD 0 "" ≠
      (runNaming []
        (nodegroup_role_managed_policy_arns.map (fun p => ("eks-nodegroup-role", p)))).getD 0 "" := by
  refine ⟨?_, nodegroup_names_depend_on_service_prefix⟩
  interval_cases i <;> decide

/-- `pythonRound` reproduces Python's `round` on the reference cases
`round(80.5) = 80`, `round(81.5) = 82`, `round(2.5) = 2`,
`round(-2.5) = -2`. -/
theorem pythonRound_reference_cases :
    pythonRound (mkRat 161 2) = 80 ∧ pythonRound (mkRat 163 2) = 82 ∧
    pythonRound (mkRat 5 2) = 2 ∧ pythonRound (mkRat (-5) 2) = -2 := by
  refine ⟨by decide, by decide, by decide, by decide⟩

/-- Witness for C9 at `i = 3` (the second node-group attachment). -/
theorem attachment_suffix_is_cumulative_sha1_witness :
    (step7AttachmentNames.getD 3 "" =
      (declaredAttachments.getD 3 ("", "")).1 ++ "-" ++
        (sha1Hexdigest (utf8Bytes (String.join (allPolicyArns.take 4)))).take 8) ∧
    (runNaming (utf8Bytes (String.join service_role_managed_policy_arns))
        (nodegroup_role_managed_policy_arns.map (fun p => ("eks-nodegroup-role", p)))).getD 0 "" ≠
      (runNaming []
        (nodegroup_role_managed_policy_arns.map (fun p => ("eks-nodegroup-role", p)))).getD 0 "" :=
  attachment_suffix_is_cumulative_sha1 3 (by decide)

/-- C3: once the service's load-balancer hostname has resolved (and its
statically declared port 80 has resolved, whether the provider returned
it as the integer 80 or as a wider numeric 80), the program's `'url'`
output materializes to exactly `"http://" ++ hostname ++ ":80"` — the
port having been coerced to an integer by `round` inside the url lambda
at materialization time. -/
theorem url_output_materialization (host : String) (env : Env)
    (hh : env "app-service" "hostname" = some (.str host))
    (hp : env "app-service" "port" = some (.int 80) ∨
          env "app-service" "port" = some (.rat (mkRat 80 1))) :
    resolve env urlOutput = .ok (.str ("http://" ++ host ++ ":80")) := by
  have ht : toString (80 : Int) = "80" := rfl
  have hq : pythonRound (mkRat 80 1) = (80 : Int) := by decide
  rcases hp with hp | hp <;>
    simp only [urlOutput, resolve, resolveList, hh, hp, urlFormat, valStr, valRound,
      hq, ht, String.append_assoc] <;> rfl

/-- Witness for C3: in `envService` the url output materializes to
`"http://lb.example.com:80"`. -/
theorem url_output_materialization_witness :
    resolve envService urlOutput = .ok (.str ("http://" ++ "lb.example.com" ++ ":80")) :=
  url_output_materialization "lb.example.com" envService rfl (.inl rfl)

/-- C4: once the cluster has provisioned with endpoint `e`, certificate
data `d` and name `n`, the kubeconfig output materializes to exactly
`generateKubeconfig e d n` — the declared transformation applied to the
actual outputs; and in a run where the cluster failed permanently (so
never populated its output attributes), the output resolves to an error
naming the failed resource `"eks-cluster"`. -/
theorem kubeconfig_output_materialization (env envF : Env) (e d n : String)
    (he : env "eks-cluster" "endpoint" = some (.str e))
    (hd : env "eks-cluster" "certificate_authority.data" = some (.str d))
    (hn : env "eks-cluster" "name" = some (.str n))
    (hf : envF "eks-cluster" "endpoint" = none) :
    resolve env kubeconfigOutput = .ok (.str (generateKubeconfig e d n)) ∧
    resolve envF kubeconfigOutput = .error "eks-cluster" := by
  constructor
  · simp only [kubeconfigOutput, resolve, resolveList, he, hd, hn, valStr]
  · simp only [kubeconfigOutput, resolve, resolveList, hf]

/-- Witness for C4: the kubeconfig output materializes in `envCluster`
to the generated document, and resolves to the error naming
`"eks-cluster"` in the failed run `envClusterFailed`. -/
theorem kubeconfig_output_materialization_witness :
    resolve envCluster kubeconfigOutput =
      .ok (.str (generateKubeconfig "https://eks.example.com" "Q0VSVA==" "eks-cluster-ab12cd3")) ∧
    resolve envClusterFailed kubeconfigOutput = .error "eks-cluster" :=
  kubeconfig_output_materialization envCluster envClusterFailed
    "https://eks.example.com" "Q0VSVA==" "eks-cluster-ab12cd3" rfl rfl rfl rfl

/-- C10: `generateKubeconfig` is a pure function of its three inputs: it
serializes (with `json.dumps`) a document whose fixed fields are the
same for all inputs — apiVersion `"v1"`, kind `"Config"`,
current-context `"aws"`, a single context and user both named `"aws"`
executing `aws-iam-authenticator` — and whose only input-dependent
leaves are the cluster server (`endpoint`), the
certificate-authority-data (`cert_data`), and the final token argument
(`cluster_name`). -/
theorem generateKubeconfig_document_shape (e d n : String) :
    generateKubeconfig e d n = jsonDumps (kubeconfigDoc e d n) ∧
    jLookup (kubeconfigDoc e d n) "apiVersion" = some (.str "v1") ∧
    jLookup (kubeconfigDoc e d n) "kind" = some (.str "Config") ∧
    jLookup (kubeconfigDoc e d n) "current-context" = some (.str "aws") ∧
    jLookup (kubeconfigDoc e d n) "clusters" =
      some (.arr [.obj [
        ("cluster", .obj [("server", .str e), ("certificate-authority-data", .str d)]),
        ("name", .str "kubernetes")]]) ∧
    jLookup (kubeconfigDoc e d n) "contexts" =
      some (.arr [.obj [
        ("context", .obj [("cluster", .str "kubernetes"), ("user", .str "aws")]),
        ("name", .str "aws")]]) ∧
    jLookup (kubeconfigDoc e d n) "users" =
      some (.arr [.obj [
        ("name", .str "aws"),
        ("user", .obj [("exec", .obj [
            ("apiVersion", .str "client.authentication.k8s.io/v1alpha1"),
            ("command", .str "aws-iam-authenticator"),
            ("args", .arr [.str "token", .str "-i", .str n])])])]]) :=
  ⟨rfl, rfl, rfl, rfl, rfl, rfl, rfl⟩

/-- Membership in `prereqs` is exactly a dependency edge. -/
theorem mem_prereqs (g : Graph) (r d : String) : d ∈ prereqs g r ↔ (r, d) ∈ g.edges := by
  simp only [prereqs, List.mem_map, List.mem_filter]
  constructor
  · rintro ⟨e, ⟨he, hr⟩, hd⟩
    have h1 : e.1 = r := by simpa using hr
    obtain ⟨e1, e2⟩ := e
    simp only at h1 hd
    rw [h1, hd] at he
    exact he
  · intro h
    exact ⟨(r, d), ⟨h, by simp⟩, rfl⟩

/-- A single state update preserves `depsCreated`, provided the stepped
resource was not `Created` and its new state, unless `Pending` or
`Failed`, is justified by its prerequisites being `Created`. -/
theorem upd_preserves_depsCreated (g : Graph) (s : StateMap) (q : String) (x : RState)
    (hinv : depsCreated g s) (hqnotc : s q ≠ .Created)
    (hx : x ≠ .Pending → x ≠ .Failed → ∀ d ∈ prereqs g q, s d = .Created) :
    depsCreated g (upd s q x) := by
  intro r hr1 hr2 d hd
  by_cases hrq : r = q
  · rw [hrq] at hr1 hr2 hd
    rw [show upd s q x q = x from by simp [upd]] at hr1 hr2
    have hsd := hx hr1 hr2 d hd
    have hdq : d ≠ q := fun hdq => hqnotc (hdq ▸ hsd)
    simpa [upd, hdq] using hsd
  · rw [show upd s q x r = s r from by simp [upd, hrq]] at hr1 hr2
    have hsd := hinv r hr1 hr2 d hd
    have hdq : d ≠ q := fun hdq => hqnotc (hdq ▸ hsd)
    simpa [upd, hdq] using hsd

/-- Every scheduler transition preserves `depsCreated`. -/
theorem schedStep_preserves_depsCreated (g : Graph) (s t : StateMap)
    (hst : SchedStep g s t) (hinv : depsCreated g s) : depsCreated g t := by
  cases hst with
  | ready q hmem hp hdeps =>
      refine upd_preserves_depsCreated g s q _ hinv (by rw [hp]; decide) ?_
      intro _ _ d hd
      exact beq_iff_eq.mp (List.all_eq_true.mp hdeps d hd)
  | dispatch q h =>
      exact upd_preserves_depsCreated g s q _ hinv (by rw [h]; decide)
        (fun _ _ => hinv q (by rw [h]; decide) (by rw [h]; decide))
  | complete q h =>
      exact upd_preserves_depsCreated g s q _ hinv (by rw [h]; decide)
        (fun _ _ => hinv q (by rw [h]; decide) (by rw [h]; decide))
  | failPermanent q h =>
      exact upd_preserves_depsCreated g s q _ hinv (by rw [h]; decide)
        (fun _ hf => absurd rfl hf)
  | retryTransient q h =>
      exact upd_preserves_depsCreated g s q _ hinv (by rw [h]; decide)
        (fun _ _ => hinv q (by rw [h]; decide) (by rw [h]; decide))
  | retryDispatch q h =>
      exact upd_preserves_depsCreated g s q _ hinv (by rw [h]; decide)
        (fun _ _ => hinv q (by rw [h]; decide) (by rw [h]; decide))
  | retryExhausted q h =>
      exact upd_preserves_depsCreated g s q _ hinv (by rw [h]; decide)
        (fun _ hf => absurd rfl hf)
  | propagateFailure q hp hfail =>
      exact upd_preserves_depsCreated g s q _ hinv (by rw [hp]; decide)
        (fun _ hf => absurd rfl hf)

/-- Every scheduler execution preserves `depsCreated`. -/
theorem schedExec_preserves_depsCreated (g : Graph) (s t : StateMap)
    (h : SchedExec g s t) (hinv : depsCreated g s) : depsCreated g t := by
  induction h with
  | refl s => exact hinv
  | step s t u hst hexec ih => exact ih (schedStep_preserves_depsCreated g s t hst hinv)

/-- C7: for every acyclic dependency graph, every execution of the
scheduler from the all-`Pending` initial state is a valid topological
execution — whenever a resource's provisioning call has started (it is
`Creating`, `Retrying` or `Created`), every source of its dependency
edges has reached `Created`. -/
theorem scheduler_topological_execution (g : Graph) (hacy : Acyclic g)
    (s : StateMap) (hexec : SchedExec g initState s) (r : String)
    (hs : startedState (s r) = true) :
    (prereqs g r).all (fun d => s d == .Created) = true := by
  have hinv := schedExec_preserves_depsCreated g initState s hexec
    (fun r h1 _ _ _ => absurd rfl h1)
  have hnp : s r ≠ .Pending := fun h => by rw [h] at hs; exact absurd hs (by decide)
  have hnf : s r ≠ .Failed := fun h => by rw [h] at hs; exact absurd hs (by decide)
  exact List.all_eq_true.mpr (fun d hd => beq_iff_eq.mpr (hinv r hnp hnf d hd))

/-- Witness for C7: a concrete execution over the two-resource graph
`gW` in which `"b"`'s provisioning has started, so its prerequisite
`"a"` is `Created`. -/
theorem scheduler_topological_execution_witness :
    (prereqs gW "b").all (fun d => sW d == .Created) = true :=
  scheduler_topological_execution gW ⟨mW, by decide⟩ sW
    (.step _ _ _ (.ready initState "a" (by decide) rfl (by decide))
    (.step _ _ _ (.dispatch _ "a" (by decide))
    (.step _ _ _ (.complete _ "a" (by decide))
    (.step _ _ _ (.ready _ "b" (by decide) (by decide) (by decide))
    (.step _ _ _ (.dispatch _ "b" (by decide))
    (.refl _)))))) "b" (by decide)

/-- A pass never changes a `Created` resource. -/
theorem passOne_preserves_created (g : Graph) (fails : String → Bool) (s : StateMap)
    (r : String) (h : s r = .Created) : passOne g fails s r = .Created := by
  simp only [passOne, h]
  split <;> rfl

/-- A pass never changes a `Failed` resource. -/
theorem passOne_preserves_failed (g : Graph) (fails : String → Bool) (s : StateMap)
    (r : String) (h : s r = .Failed) : passOne g fails s r = .Failed := by
  simp only [passOne, h]
  split <;> rfl

/-- The synchronous scheduler only ever produces `Pending`, `Created`
or `Failed` states. -/
theorem runSched_state_cases (g : Graph) (fails : String → Bool) :
    ∀ (n : Nat) (r : String),
      (runSched g fails n).1 r = .Pending ∨ (runSched g fails n).1 r = .Created ∨
        (runSched g fails n).1 r = .Failed
  | 0, r => .inl rfl
  | n + 1, r => by
      have ih := runSched_state_cases g fails n r
      simp only [runSched]
      by_cases hm : r ∈ g.resources
      · rcases ih with h | h | h
        · simp only [passOne, if_pos hm, h]
          split
          · split
            · exact .inr (.inr rfl)
            · exact .inr (.inl rfl)
          · split
            · exact .inr (.inr rfl)
            · exact .inl rfl
        · exact .inr (.inl (passOne_preserves_created g fails _ r h))
        · exact .inr (.inr (passOne_preserves_failed g fails _ r h))
      · simp only [passOne, if_neg hm]
        exact ih

/-- `Created` persists through all later passes. -/
theorem runSched_created_mono (g : Graph) (fails : String → Bool) (n : Nat) (r : String)
    (h : (runSched g fails n).1 r = .Created) :
    ∀ k, n ≤ k → (runSched g fails k).1 r = .Created := by
  intro k hk
  induction hk with
  | refl => exact h
  | step hm ih => exact passOne_preserves_created g fails _ r ih

/-- If a resource's create capability was invoked during a run, all its
prerequisites are `Created` at the end of the run. -/
theorem runSched_invoked_prereqs (g : Graph) (fails : String → Bool) :
    ∀ (n : Nat) (r : String), r ∈ (runSched g fails n).2 →
      ∀ d ∈ prereqs g r, (runSched g fails n).1 d = .Created
  | 0, r, h => absurd h (List.not_mem_nil r)
  | n + 1, r, h => by
      simp only [runSched] at h ⊢
      rcases List.mem_append.mp h with h | h
      · intro d hd
        exact passOne_preserves_created g fails _ d
          (runSched_invoked_prereqs g fails n r h d hd)
      · have hfil := List.mem_filter.mp h
        have hall := (Bool.and_eq_true _ _).mp hfil.2 |>.2
        intro d hd
        exact passOne_preserves_created g fails _ d
          (beq_iff_eq.mp (List.all_eq_true.mp hall d hd))

/-- A `Created` resource has all its prerequisites `Created`. -/
theorem runSched_created_prereqs (g : Graph) (fails : String → Bool) :
    ∀ (n : Nat) (r : String), (runSched g fails n).1 r = .Created →
      ∀ d ∈ prereqs g r, (runSched g fails n).1 d = .Created
  | 0, r, h => nomatch h
  | n + 1, r, h => by
      simp only [runSched] at h ⊢
      by_cases hm : r ∈ g.resources
      · rcases runSched_state_cases g fails n r with hs | hs | hs
        · by_cases hall :
              ((prereqs g r).all fun d => (runSched g fails n).1 d == RState.Created) = true
          · intro d hd
            exact passOne_preserves_created g fails _ d
              (beq_iff_eq.mp (List.all_eq_true.mp hall d hd))
          · simp only [passOne, if_pos hm, hs, if_neg hall] at h
            split at h
            · exact absurd h (by decide)
            · exact absurd h (by decide)
        · intro d hd
          exact passOne_preserves_created g fails _ d
            (runSched_created_prereqs g fails n r hs d hd)
        · rw [passOne_preserves_failed g fails _ r hs] at h
          exact absurd h (by decide)
      · simp only [passOne, if_neg hm] at h
        intro d hd
        exact passOne_preserves_created g fails _ d
          (runSched_created_prereqs g fails n r h d hd)

/-- A `Created` resource has all its transitive prerequisites
`Created`. -/
theorem runSched_created_transdep (g : Graph) (fails : String → Bool) (n : Nat)
    (a b : String) (hdep : DependsOn g a b)
    (h : (runSched g fails n).1 a = .Created) : (runSched g fails n).1 b = .Created := by
  induction hdep with
  | direct x y hy => exact runSched_created_prereqs g fails n x h y hy
  | trans x y z hy hdep ih => exact ih (runSched_created_prereqs g fails n x h y hy)

/-- Completeness of the run: under a topological rank bounded by the
pass count, every resource ends in a terminal state. -/
theorem runSched_terminal (g : Graph) (fails : String → Bool) (m : String → Nat)
    (hrank : ∀ e ∈ g.edges, m e.2 < m e.1)
    (hclosed : ∀ e ∈ g.edges, e.2 ∈ g.resources) :
    ∀ (j : Nat) (r : String), r ∈ g.resources → m r < j →
      isTerminal ((runSched g fails j).1 r) = true := by
  intro j
  induction j with
  | zero => exact fun r _ hm => absurd hm (Nat.not_lt_zero _)
  | succ j ih =>
      intro r hr hm
      rcases runSched_state_cases g fails j r with hs | hs | hs
      · have hterm : ∀ d ∈ prereqs g r, isTerminal ((runSched g fails j).1 d) = true := by
          intro d hd
          have he : (r, d) ∈ g.edges := (mem_prereqs g r d).mp hd
          exact ih d (hclosed _ he)
            (Nat.lt_of_lt_of_le (hrank _ he) (Nat.lt_succ_iff.mp hm))
        show isTerminal (passOne g fails (runSched g fails j).1 r) = true
        by_cases hall :
            ((prereqs g r).all fun d => (runSched g fails j).1 d == RState.Created) = true
        · simp only [passOne, if_pos hr, hs, if_pos hall]
          split <;> rfl
        · have hany :
              ((prereqs g r).any fun d => (runSched g fails j).1 d == RState.Failed) = true := by
            simp only [List.all_eq_true, not_forall] at hall
            obtain ⟨d, hd, hne⟩ := hall
            refine List.any_eq_true.mpr ⟨d, hd, ?_⟩
            have ht := hterm d hd
            rcases runSched_state_cases g fails j d with hx | hx | hx
            · rw [hx] at ht; exact absurd ht (by decide)
            · exact absurd (beq_iff_eq.mpr hx) hne
            · exact beq_iff_eq.mpr hx
          simp only [passOne, if_pos hr, hs, if_neg hall, if_pos hany]
          rfl
      · show isTerminal (passOne g fails (runSched g fails j).1 r) = true
        rw [passOne_preserves_created g fails _ r hs]
        rfl
      · show isTerminal (passOne g fails (runSched g fails j).1 r) = true
        rw [passOne_preserves_failed g fails _ r hs]
        rfl

/-- C8: in a completed scheduler run over an acyclic graph (witnessed by
a topological rank `m` bounded by the pass count `fuel`, with edges
pointing at declared resources), if resource `B` — on which `A`
transitively depends — ends `Failed`, then `A` ends `Failed` and `A`'s
create capability was never invoked. -/
theorem failure_propagation_without_create (g : Graph) (fails : String → Bool)
    (m : String → Nat) (fuel : Nat) (A B : String)
    (hrank : ∀ e ∈ g.edges, m e.2 < m e.1)
    (hclosed : ∀ e ∈ g.edges, e.2 ∈ g.resources)
    (hA : A ∈ g.resources)
    (hfuel : ∀ r ∈ g.resources, m r < fuel)
    (hdep : DependsOn g A B)
    (hBfail : (runSched g fails fuel).1 B = .Failed) :
    (runSched g fails fuel).1 A = .Failed ∧ A ∉ (runSched g fails fuel).2 := by
  have hterm := runSched_terminal g fails m hrank hclosed fuel A hA (hfuel A hA)
  have hAnotC : (runSched g fails fuel).1 A ≠ .Created := by
    intro hc
    have hBc := runSched_created_transdep g fails fuel A B hdep hc
    rw [hBc] at hBfail
    exact absurd hBfail (by decide)
  constructor
  · rcases runSched_state_cases g fails fuel A with hs | hs | hs
    · rw [hs] at hterm; exact absurd hterm (by decide)
    · exact absurd hs hAnotC
    · exact hs
  · intro hin
    have hpre := runSched_invoked_prereqs g fails fuel A hin
    cases hdep with
    | direct x y hy =>
        have hBc := hpre B hy
        rw [hBc] at hBfail
        exact absurd hBfail (by decide)
    | trans x y z hy hdep2 =>
        have hyc := hpre y hy
        have hBc := runSched_created_transdep g fails fuel y B hdep2 hyc
        rw [hBc] at hBfail
        exact absurd hBfail (by decide)

/-- Witness for C8: in `gW` with `"a"` failing permanently, `"b"` ends
`Failed` and is never invoked. -/
theorem failure_propagation_without_create_witness :
    (runSched gW failsA 2).1 "b" = .Failed ∧ "b" ∉ (runSched gW failsA 2).2 :=
  failure_propagation_without_create gW failsA mW 2 "b" "a"
    (by decide) (by decide) (by decide) (by decide)
    (.direct "b" "a" (by decide)) (by decide)

end IaCW
